import Mathlib

/-
Verification of the pdminterpreter extension core (src/extension.ts).

The TypeScript source is shallowly embedded below.  JavaScript strings are
modelled as Lean `String` (a list of characters); JavaScript string methods
(`slice`, `startsWith`, `charAt`, `split`, `trimStart`/`trimEnd`) are given
explicit `js`-prefixed Lean counterparts with the same semantics.  `vscode.Uri`
values are modelled by their posix path string (on a posix host `uri.path` and
`uri.fsPath` coincide, and `vscode.Uri.file`/`fsPath` are the identity on such
strings).  `CryptoJS.MD5` and `CryptoJS.enc.Base64url` are modelled by a full
MD5 implementation over byte lists together with the padding-free url-safe
base64 alphabet used by CryptoJS.  Node's `fs.promises` API is modelled by an
explicit file-system valuation together with `Except`-valued results: a
rejected promise is an `Except.error` carrying the Node error (discriminated,
as in Node, by its error code: ENOENT for a missing file versus other I/O
codes for an unreadable one).
-/

set_option maxRecDepth 1000000

/-! ## JavaScript string primitives -/

/-- JS `s[i]` / `s.charAt(i)` as an optional character. -/
def jsCharAt (s : String) (i : Nat) : Option Char := s.data[i]?

/-- JS `s.slice(n)` for a nonnegative `n`. -/
def jsSliceFrom (s : String) (n : Nat) : String := ⟨s.data.drop n⟩

/-- JS `s.slice(0, n)` for a nonnegative `n`. -/
def jsSlice0 (s : String) (n : Nat) : String := ⟨s.data.take n⟩

/-- JS `s.length`. -/
def jsLength (s : String) : Nat := s.data.length

/-- JS `s.startsWith(p)`. -/
def jsStartsWith (s p : String) : Bool := p.data.isPrefixOf s.data

/-- JS whitespace test used by `trimStart`/`trimEnd` (space, tab, CR, LF). -/
def jsSpace (c : Char) : Bool := c.isWhitespace

/-- JS `s.trimStart().trimEnd()` on a character list. -/
def jsTrimList (l : List Char) : List Char :=
  ((l.dropWhile jsSpace).reverse.dropWhile jsSpace).reverse

/-- JS `s.trimStart().trimEnd()`. -/
def jsTrim (s : String) : String := ⟨jsTrimList s.data⟩

/-- JS `s.split(sep)` for a single-character separator, on character lists. -/
def splitChar (sep : Char) : List Char → List (List Char)
  | [] => [[]]
  | c :: rest =>
    if c = sep then [] :: splitChar sep rest
    else
      match splitChar sep rest with
      | [] => [[c]]
      | g :: gs => (c :: g) :: gs

/-! ## Node `path.posix` primitives -/

/-- Node `path.basename(p)` (posix): the last path segment, with trailing
slashes removed first; the empty string when nothing remains. -/
def basename (p : String) : String :=
  ⟨((p.data.reverse.dropWhile (fun c => c == '/')).takeWhile
      (fun c => ! (c == '/'))).reverse⟩

/-- One `..` step of `vscode.Uri.joinPath`, i.e. posix `join(p, "..")` on the
absolute paths this extension manipulates: remove the last path segment. -/
def parentDir (p : String) : String :=
  let cs := p.data.reverse.dropWhile (fun c => c == '/')
  let rest := (cs.dropWhile (fun c => ! (c == '/'))).dropWhile (fun c => c == '/')
  if rest = [] then (if p.data[0]? = some '/' then "/" else ".") else ⟨rest.reverse⟩

/-! ## `PDM.as_posix` (extension.ts lines 104-115) -/

/-- JS `s[i].toUpperCase()` viewed as a (possibly empty) one-character
string: `charAt` yields a one-character string inside the bounds and the
empty string outside them. -/
def jsCharStrUpper (s : String) (i : Nat) : String :=
  ⟨((s.data.drop i).take 1).map Char.toUpper⟩

/-- `PDM.as_posix`: the path canonicalizer.  Mirrors
`if (ws_path.length < 3 || ws_path[0] !== '/' || ws_path[2] !== ':') return ws_path;
 return ws_path[1].toUpperCase() + ws_path.slice(2);`. -/
def as_posix (ws_path : String) : String :=
  if ws_path.data.length < 3 ∨ jsCharAt ws_path 0 ≠ some '/' ∨ jsCharAt ws_path 2 ≠ some ':' then
    ws_path
  else
    jsCharStrUpper ws_path 1 ++ jsSliceFrom ws_path 2

/-! ## MD5 (the semantics of `CryptoJS.MD5`), over byte lists -/

/-- 2^32, the word modulus of MD5. -/
def M32 : Nat := 4294967296

/-- Bitwise complement on 32-bit words represented as `Nat`. -/
def bnot32 (x : Nat) : Nat := 4294967295 - x % M32

/-- 32-bit left rotation. -/
def rotl32 (x s : Nat) : Nat :=
  ((x <<< s) ||| (x >>> (32 - s))) % M32

/-- The MD5 round constants `K[i] = floor(2^32 * |sin(i+1)|)`. -/
def md5K : List Nat :=
  [0xd76aa478, 0xe8c7b756, 0x242070db, 0xc1bdceee,
   0xf57c0faf, 0x4787c62a, 0xa8304613, 0xfd469501,
   0x698098d8, 0x8b44f7af, 0xffff5bb1, 0x895cd7be,
   0x6b901122, 0xfd987193, 0xa679438e, 0x49b40821,
   0xf61e2562, 0xc040b340, 0x265e5a51, 0xe9b6c7aa,
   0xd62f105d, 0x02441453, 0xd8a1e681, 0xe7d3fbc8,
   0x21e1cde6, 0xc33707d6, 0xf4d50d87, 0x455a14ed,
   0xa9e3e905, 0xfcefa3f8, 0x676f02d9, 0x8d2a4c8a,
   0xfffa3942, 0x8771f681, 0x6d9d6122, 0xfde5380c,
   0xa4beea44, 0x4bdecfa9, 0xf6bb4b60, 0xbebfbc70,
   0x289b7ec6, 0xeaa127fa, 0xd4ef3085, 0x04881d05,
   0xd9d4d039, 0xe6db99e5, 0x1fa27cf8, 0xc4ac5665,
   0xf4292244, 0x432aff97, 0xab9423a7, 0xfc93a039,
   0x655b59c3, 0x8f0ccc92, 0xffeff47d, 0x85845dd1,
   0x6fa87e4f, 0xfe2ce6e0, 0xa3014314, 0x4e0811a1,
   0xf7537e82, 0xbd3af235, 0x2ad7d2bb, 0xeb86d391]

/-- The MD5 per-round left-rotation amounts. -/
def md5S : List Nat :=
  [7, 12, 17, 22, 7, 12, 17, 22, 7, 12, 17, 22, 7, 12, 17, 22,
   5, 9, 14, 20, 5, 9, 14, 20, 5, 9, 14, 20, 5, 9, 14, 20,
   4, 11, 16, 23, 4, 11, 16, 23, 4, 11, 16, 23, 4, 11, 16, 23,
   6, 10, 15, 21, 6, 10, 15, 21, 6, 10, 15, 21, 6, 10, 15, 21]

/-- Serialize a 32-bit word to four little-endian bytes. -/
def word32ToBytesLE (w : Nat) : List Nat :=
  [w % 256, (w / 256) % 256, (w / 65536) % 256, (w / 16777216) % 256]

/-- Parse little-endian 32-bit words out of a byte list. -/
def bytesToWordsLE : List Nat → List Nat
  | b0 :: b1 :: b2 :: b3 :: rest =>
      (b0 + 256 * b1 + 65536 * b2 + 16777216 * b3) :: bytesToWordsLE rest
  | _ => []

/-- MD5 padding: a 0x80 byte, zeros to 56 mod 64, then the bit length as a
64-bit little-endian quantity. -/
def md5Pad (msg : List Nat) : List Nat :=
  let len := msg.length
  let zeros := (120 - (len + 1) % 64) % 64
  msg ++ [0x80] ++ List.replicate zeros 0 ++
    [ (len * 8) % 256, (len * 8 / 2 ^ 8) % 256, (len * 8 / 2 ^ 16) % 256,
      (len * 8 / 2 ^ 24) % 256, (len * 8 / 2 ^ 32) % 256, (len * 8 / 2 ^ 40) % 256,
      (len * 8 / 2 ^ 48) % 256, (len * 8 / 2 ^ 56) % 256 ]

/-- Split a byte list into 64-byte blocks (fuel-driven structural recursion so
that the kernel can evaluate it). -/
def chunksAux : Nat → List Nat → List (List Nat)
  | 0, _ => []
  | _, [] => []
  | fuel + 1, x :: rest => ((x :: rest).take 64) :: chunksAux fuel ((x :: rest).drop 64)

/-- Split a byte list into 64-byte blocks. -/
def chunks64 (l : List Nat) : List (List Nat) := chunksAux l.length l

/-- One MD5 round: round `i` applied to the state `(a, b, c, d)` with message
words `M`. -/
def md5Round (M : List Nat) (st : Nat × Nat × Nat × Nat) (i : Nat) : Nat × Nat × Nat × Nat :=
  let a := st.1
  let b := st.2.1
  let c := st.2.2.1
  let d := st.2.2.2
  let f :=
    if i < 16 then (b &&& c) ||| (bnot32 b &&& d)
    else if i < 32 then (d &&& b) ||| (bnot32 d &&& c)
    else if i < 48 then b ^^^ c ^^^ d
    else c ^^^ (b ||| bnot32 d)
  let g :=
    if i < 16 then i
    else if i < 32 then (5 * i + 1) % 16
    else if i < 48 then (3 * i + 5) % 16
    else (7 * i) % 16
  let tmp := (a + f + md5K.getD i 0 + M.getD g 0) % M32
  (d, (b + rotl32 tmp (md5S.getD i 0)) % M32, b, c)

/-- Process one 64-byte block. -/
def md5Block (st : Nat × Nat × Nat × Nat) (block : List Nat) : Nat × Nat × Nat × Nat :=
  let M := bytesToWordsLE block
  let r := (List.range 64).foldl (md5Round M) st
  ((st.1 + r.1) % M32, (st.2.1 + r.2.1) % M32, (st.2.2.1 + r.2.2.1) % M32,
   (st.2.2.2 + r.2.2.2) % M32)

/-- The MD5 initial state. -/
def md5Init : Nat × Nat × Nat × Nat := (0x67452301, 0xefcdab89, 0x98badcfe, 0x10325476)

/-- The MD5 digest (16 bytes) of a byte list. -/
def md5 (msg : List Nat) : List Nat :=
  let st := (chunks64 (md5Pad msg)).foldl md5Block md5Init
  word32ToBytesLE st.1 ++ word32ToBytesLE st.2.1 ++ word32ToBytesLE st.2.2.1 ++
    word32ToBytesLE st.2.2.2

/-! ## Url-safe base64 (the semantics of `CryptoJS.enc.Base64url`) -/

/-- The url-safe base64 alphabet used by `CryptoJS.enc.Base64url` (`+`/`/`
replaced by `-`/`_`, and no padding character). -/
def b64UrlAlphabet : List Char :=
  "ABCDEFGHIJKLMNOPQRSTUVWXYZabcdefghijklmnopqrstuvwxyz0123456789-_".data

/-- The url-safe base64 digit for a 6-bit value. -/
def b64Char (n : Nat) : Char := b64UrlAlphabet.getD n 'A'

/-- Url-safe, padding-free base64 of a byte list. -/
def base64url : List Nat → List Char
  | [] => []
  | [b0] => [b64Char (b0 / 4), b64Char ((b0 % 4) * 16)]
  | [b0, b1] => [b64Char (b0 / 4), b64Char ((b0 % 4) * 16 + b1 / 16), b64Char ((b1 % 16) * 4)]
  | b0 :: b1 :: b2 :: rest =>
      b64Char (b0 / 4) :: b64Char ((b0 % 4) * 16 + b1 / 16) ::
      b64Char ((b1 % 16) * 4 + b2 / 64) :: b64Char (b2 % 64) :: base64url rest

/-- UTF-8 encoding of a Unicode code point. -/
def utf8EncodeCharNat (n : Nat) : List Nat :=
  if n < 0x80 then [n]
  else if n < 0x800 then [0xC0 ||| (n >>> 6), 0x80 ||| (n &&& 0x3F)]
  else if n < 0x10000 then
    [0xE0 ||| (n >>> 12), 0x80 ||| ((n >>> 6) &&& 0x3F), 0x80 ||| (n &&& 0x3F)]
  else
    [0xF0 ||| (n >>> 18), 0x80 ||| ((n >>> 12) &&& 0x3F), 0x80 ||| ((n >>> 6) &&& 0x3F),
     0x80 ||| (n &&& 0x3F)]

/-- The UTF-8 bytes of a string (what `CryptoJS.MD5` hashes when handed a
JavaScript string). -/
def utf8Bytes (s : String) : List Nat :=
  s.data.flatMap (fun c => utf8EncodeCharNat c.toNat)

/-- `CryptoJS.MD5(s).toString(CryptoJS.enc.Base64url)`. -/
def cryptoJS_md5_base64url (s : String) : String := ⟨base64url (md5 (utf8Bytes s))⟩

/-! ## `PDM.get_hash`, `PDM.get_hashed_prefix` (extension.ts lines 121-123) -/

/-- `PDM.get_hash`: `CryptoJS.MD5(as_posix(p)).toString(CryptoJS.enc.Base64url).slice(0, 8)`,
with the Uri `p` modelled by its path string. -/
def get_hash (p : String) : String := jsSlice0 (cryptoJS_md5_base64url (as_posix p)) 8

/-- `PDM.get_hashed_prefix`: `path.basename(p.fsPath) + '-' + get_hash(p) + '-'`. -/
def get_hashed_prefix (p : String) : String := basename p ++ "-" ++ get_hash p ++ "-"

/-! ## `PDM.get_active_name` (extension.ts lines 125-136) -/

/-- `PDM.get_active_name` with the binary supplied (as in every call site of
this repository; the `undefined` default instead reads the marker file first).
`venv_path` is `Uri.joinPath(python_binary, '..', '..')`. -/
def get_active_name (ws : String) (python_binary : String) : String :=
  let venv_path := parentDir (parentDir python_binary)
  let venv_hashed_name := basename venv_path
  let hp := get_hashed_prefix ws
  if ! jsStartsWith venv_hashed_name hp then python_binary
  else jsSliceFrom venv_hashed_name (jsLength hp)

/-! ## The file system and Node `fs.promises` -/

/-- The state of one path in the modelled file system. -/
inductive FileState where
  | absent
  | unreadable (code : String)
  | content (text : String)

/-- A file-system valuation. -/
def FileSys := String → FileState

/-- A Node `fs` rejection, discriminated as Node does by its `code` property:
ENOENT for a missing file, any other code for an unreadable one. -/
inductive FsError where
  | noent (p : String)
  | ioErr (p : String) (code : String)
deriving DecidableEq

/-- `fs.promises.readFile(p, 'utf8')`: resolves with the content, rejects with
an ENOENT error when the file is absent and with another I/O error when it is
unreadable. -/
def readFile (fs : FileSys) (p : String) : Except FsError String :=
  match fs p with
  | FileState.absent => Except.error (FsError.noent p)
  | FileState.unreadable code => Except.error (FsError.ioErr p code)
  | FileState.content text => Except.ok text

/-! ## `PDM.get_active_python_bin` (extension.ts lines 147-151) -/

/-- The marker-file path `vscode.Uri.joinPath(ws, ".pdm-python").fsPath`. -/
def marker_path (ws : String) : String := ws ++ "/.pdm-python"

/-- `PDM.get_active_python_bin`: read the marker file, trim it, and return the
recorded interpreter path (`vscode.Uri.file` and the later `.fsPath` are the
identity in the posix model).  A `readFile` rejection propagates unchanged. -/
def get_active_python_bin (fs : FileSys) (ws : String) : Except FsError String :=
  match readFile fs (marker_path ws) with
  | Except.error e => Except.error e
  | Except.ok value => Except.ok (jsTrim value)

/-! ## `PDM.get_venvs` (extension.ts lines 138-145) -/

/-- JS `Object.fromEntries` followed by property lookup: the last entry with
the given key wins. -/
def object_fromEntries (l : List (String × String)) (k : String) : Option String :=
  Option.map (fun kv => kv.2) (l.reverse.find? (fun kv => kv.1 == k))

/-- `PDM.get_venvs`: `venv_root` is the already-trimmed output of
`pdm config venv.location`, and `readdir venv_root` the entry names listed by
`fs.promises.readdir`.  Mirrors
`files.filter(f => basename(f).startsWith(hp)).map(f => [basename(f).slice(hp.length), f])`;
note that the entry value is the bare `readdir` name `f`, never joined with
`venv_root`. -/
def get_venvs (ws : String) (venv_root : String) (readdir : String → List String) :
    List (String × String) :=
  let files := readdir venv_root
  let hp := get_hashed_prefix ws
  (files.filter (fun file => jsStartsWith (basename file) hp)).map
    (fun file => (jsSliceFrom (basename file) (jsLength hp), file))

/-! ## `PDM.get_prompt_of_venv` (extension.ts lines 153-161) -/

/-- A failure of `get_prompt_of_venv`: either the propagated `readFile`
rejection, or the `TypeError` thrown by `undefined.trimStart()` when the
selected line has no `=`. -/
inductive PromptFailure where
  | fsError (e : FsError)
  | typeErr
deriving DecidableEq

/-- `Uri.joinPath(python_binary, '..', '..', 'pyvenv.cfg').fsPath`. -/
def pyvenv_cfg_path (binary : String) : String := parentDir (parentDir binary) ++ "/pyvenv.cfg"

/-- The predicate of `lines.find(line => line.startsWith('prompt'))`. -/
def promptPred (l : List Char) : Bool := "prompt".data.isPrefixOf l

/-- `PDM.get_prompt_of_venv`: read `pyvenv.cfg`, take the first line starting
with `prompt`; `line?.split("=")[1].trimStart().trimEnd()` is `undefined` when
no line was found, throws a `TypeError` when the line has no `=`, and otherwise
yields the trimmed value; `prompt || python_binary.fsPath` falls back to the
binary path when the result so far is `undefined` or the empty string. -/
def get_prompt_of_venv (fs : FileSys) (python_binary : String) : Except PromptFailure String :=
  match readFile fs (pyvenv_cfg_path python_binary) with
  | Except.error e => Except.error (PromptFailure.fsError e)
  | Except.ok text =>
    match (splitChar '\n' text.data).find? promptPred with
    | none => Except.ok python_binary
    | some line =>
      match (splitChar '=' line).get? 1 with
      | none => Except.error PromptFailure.typeErr
      | some v =>
        let p := jsTrimList v
        Except.ok (if p = [] then python_binary else ⟨p⟩)

/-! ## `Python.update_interpreter` (extension.ts lines 166-179) -/

/-- An observable call made by `Python.update_interpreter` on its
collaborators: pushing a path into the environment-selection API, or showing a
notification. -/
inductive Effect where
  | updateActive (path : String)
  | notify (message : String)
deriving DecidableEq

/-- `Python.update_interpreter` for a workspace folder with path `ws` and
externally held active-environment record `active_env` (the `path` of
`getActiveEnvironmentPath(ws)`).  Returns the new record together with the
ordered calls made (`updateActiveEnvironmentPath`, then the notification built
from `get_active_name`); a marker-file read rejection propagates. -/
def update_interpreter (fs : FileSys) (ws : String) (active_env : String) :
    Except FsError (String × List Effect) :=
  match get_active_python_bin fs ws with
  | Except.error e => Except.error e
  | Except.ok python_bin_path =>
    let prompt := get_active_name ws python_bin_path
    if active_env = python_bin_path then Except.ok (active_env, [])
    else
      Except.ok (python_bin_path,
        [Effect.updateActive python_bin_path,
         Effect.notify ("Updated python interpreter in " ++ basename ws ++ " to " ++ prompt)])

/-! ## Helper lemmas -/

/-- A list is a `isPrefixOf`-prefix of itself followed by anything. -/
theorem isPrefixOf_append_self (l t : List Char) : l.isPrefixOf (l ++ t) = true := by
  induction l with
  | nil => simp [List.isPrefixOf]
  | cons c cs ih => simp [List.isPrefixOf, ih]

/-- `splitChar` never returns the empty list of groups. -/
theorem splitChar_ne_nil (sep : Char) (l : List Char) : splitChar sep l ≠ [] := by
  cases l with
  | nil => simp [splitChar]
  | cons c rest =>
    simp only [splitChar]
    split
    · simp
    · split
      · simp
      · simp

/-- Splitting at a character that does not occur returns the single original
group (so JS `line.split("=")[1]` is `undefined` exactly when `line` has no
`=`). -/
theorem splitChar_not_mem (sep : Char) (l : List Char) (h : sep ∉ l) :
    splitChar sep l = [l] := by
  induction l with
  | nil => rfl
  | cons c rest ih =>
    simp only [List.mem_cons, not_or] at h
    obtain ⟨h1, h2⟩ := h
    simp only [splitChar]
    rw [if_neg (fun hc => h1 hc.symm), ih h2]

/-- Splitting at a character that does occur yields at least two groups. -/
theorem splitChar_get1_some (sep : Char) (l : List Char) (h : sep ∈ l) :
    ∃ v, (splitChar sep l).get? 1 = some v := by
  induction l with
  | nil => cases h
  | cons c rest ih =>
    by_cases hc : c = sep
    · cases e : splitChar sep rest with
      | nil => exact absurd e (splitChar_ne_nil sep rest)
      | cons g gs => exact ⟨g, by simp [splitChar, if_pos hc, e]⟩
    · have hr : sep ∈ rest := by
        rcases List.mem_cons.mp h with h1 | h1
        · exact absurd h1.symm hc
        · exact h1
      rcases ih hr with ⟨v, hv⟩
      cases e : splitChar sep rest with
      | nil => exact absurd e (splitChar_ne_nil sep rest)
      | cons g gs =>
        refine ⟨v, ?_⟩
        simp only [splitChar, if_neg hc, e]
        rw [e] at hv
        simpa using hv

/-- The MD5 digest always encodes to 22 base64url characters. -/
theorem b64_md5_length (msg : List Nat) : (base64url (md5 msg)).length = 22 := by
  simp [md5, word32ToBytesLE, base64url]

/-! ## Claim theorems -/

/-- Claim C1, counterexample: canonicalizing `/c:/Users/dev/proj` yields
`C:/Users/dev/proj` — the leading separator is dropped, not retained, so the
claimed result `/C:/Users/dev/proj` is wrong. -/
theorem as_posix_scenario_d_counterexample :
    as_posix "/c:/Users/dev/proj" = "C:/Users/dev/proj"
    ∧ as_posix "/c:/Users/dev/proj" ≠ "/C:/Users/dev/proj" := by
  constructor
  · decide
  · decide

/-- Claim C1, amended: for every path of drive-letter shape (a leading
separator, any drive character, then a colon), the canonicalizer returns the
uppercased drive letter followed by the remainder from the colon onward,
dropping the leading separator. -/
theorem as_posix_drive_amended (d : Char) (rest : List Char) :
    as_posix (String.mk ('/' :: d :: ':' :: rest)) = String.mk (d.toUpper :: ':' :: rest) := by
  have h : ¬ ((String.mk ('/' :: d :: ':' :: rest)).data.length < 3
      ∨ jsCharAt (String.mk ('/' :: d :: ':' :: rest)) 0 ≠ some '/'
      ∨ jsCharAt (String.mk ('/' :: d :: ':' :: rest)) 2 ≠ some ':') := by
    simp [jsCharAt]
  unfold as_posix
  rw [if_neg h]
  rfl

/-- Claim C7: for every path string that does not match the drive-letter
signature (length below 3, or first character not `/`, or third character not
`:`), `as_posix` is the identity. -/
theorem as_posix_identity_other_shapes (p : String)
    (h : p.data.length < 3 ∨ jsCharAt p 0 ≠ some '/' ∨ jsCharAt p 2 ≠ some ':') :
    as_posix p = p := by
  unfold as_posix
  exact if_pos h

/-- Claim C7, witness: a posix root with no drive letter is returned
unchanged. -/
theorem as_posix_identity_other_shapes_witness :
    as_posix "/home/u/proj" = "/home/u/proj" :=
  as_posix_identity_other_shapes "/home/u/proj" (Or.inr (Or.inr (by decide)))

/-- Claim C4: the hasher takes the first 8 characters of the url-safe base64
encoding of the MD5 digest of the canonical path string's UTF-8 bytes, the
result has exactly 8 characters, and it depends only on the canonical string
(equal canonical inputs give equal hashes). -/
theorem get_hash_md5_base64url_spec (p : String) :
    get_hash p = String.mk ((base64url (md5 (utf8Bytes (as_posix p)))).take 8)
    ∧ (get_hash p).data.length = 8
    ∧ ∀ q : String, as_posix p = as_posix q → get_hash p = get_hash q := by
  refine ⟨rfl, ?_, ?_⟩
  · show ((base64url (md5 (utf8Bytes (as_posix p)))).take 8).length = 8
    rw [List.length_take, b64_md5_length]
    omega
  · intro q h
    unfold get_hash cryptoJS_md5_base64url
    rw [h]

/-- Claim C4, witness at the root of Scenario A. -/
theorem get_hash_md5_base64url_spec_witness :
    get_hash "/home/u/proj" = get_hash "/home/u/proj"
    ∧ (get_hash "/home/u/proj").data.length = 8 :=
  ⟨(get_hash_md5_base64url_spec "/home/u/proj").2.2 "/home/u/proj" rfl,
   (get_hash_md5_base64url_spec "/home/u/proj").2.1⟩

/-- Claim C3: with the marker file absent, `get_active_python_bin` fails with
the ENOENT (file-missing) error for the marker path, a condition distinct from
every generic I/O read failure. -/
theorem get_active_python_bin_missing_marker (fs : FileSys) (ws : String)
    (h : fs (marker_path ws) = FileState.absent) :
    get_active_python_bin fs ws = Except.error (FsError.noent (marker_path ws))
    ∧ ∀ p code, FsError.noent (marker_path ws) ≠ FsError.ioErr p code := by
  constructor
  · unfold get_active_python_bin readFile
    rw [h]
  · intro p code hEq
    exact FsError.noConfusion hEq

/-- Claim C3, witness: an empty file system. -/
theorem get_active_python_bin_missing_marker_witness :
    get_active_python_bin (fun _ => FileState.absent) "/home/u/proj"
      = Except.error (FsError.noent "/home/u/proj/.pdm-python")
    ∧ FsError.noent "/home/u/proj/.pdm-python"
      ≠ FsError.ioErr "/home/u/proj/.pdm-python" "EACCES" := by
  have h := get_active_python_bin_missing_marker (fun _ => FileState.absent) "/home/u/proj" rfl
  exact ⟨h.1, h.2 "/home/u/proj/.pdm-python" "EACCES"⟩

/-- Claim C5: whenever the basename of the directory two levels above the
binary is exactly the hashed prefix of the root followed by `X`, the resolver
returns exactly `X`. -/
theorem get_active_name_round_trip (ws python_binary X : String)
    (h : basename (parentDir (parentDir python_binary)) = get_hashed_prefix ws ++ X) :
    get_active_name ws python_binary = X := by
  have hs : jsStartsWith ( get_hashed_prefix ws ++ X) ( get_hashed_prefix ws) = true := by
    unfold jsStartsWith
    rw [String.data_append]
    exact isPrefixOf_append_self _ _
  have hd : jsSliceFrom ( get_hashed_prefix ws ++ X) (jsLength ( get_hashed_prefix ws)) = X := by
    unfold jsSliceFrom jsLength
    rw [String.data_append, List.drop_left]
  simp [get_active_name, h, hs, hd]

/-- Claim C5, witness (Scenario B with the real hash of `/home/u/proj`). -/
theorem get_active_name_round_trip_witness :
    get_active_name "/home/u/proj" "/venvs/proj-T6_OZwU--myenv/bin/python" = "myenv" :=
  get_active_name_round_trip "/home/u/proj" "/venvs/proj-T6_OZwU--myenv/bin/python" "myenv"
    (by decide)

/-- Claim C6: when the venv directory name two levels above the binary does
not start with the project's hashed prefix, the resolver returns the binary
path unchanged (and, being a total function, never raises). -/
theorem get_active_name_fallback (ws python_binary : String)
    (h : jsStartsWith (basename (parentDir (parentDir python_binary)))
        ( get_hashed_prefix ws) = false) :
    get_active_name ws python_binary = python_binary := by
  simp [get_active_name, h]

/-- Claim C6, witness (Scenario C). -/
theorem get_active_name_fallback_witness :
    get_active_name "/home/u/proj" "/usr/bin/python3" = "/usr/bin/python3" :=
  get_active_name_fallback "/home/u/proj" "/usr/bin/python3" (by decide)

/-- Claim C2, counterexample: with the real hash of `/home/u/proj` and a
directory `proj-T6_OZwU--myenv` under the storage root `/venvs`, the
enumerator maps `myenv` to the bare entry name, which differs from the
storage-root-joined full path the claim asserts. -/
theorem get_venvs_bare_name_counterexample :
    object_fromEntries
        (get_venvs "/home/u/proj" "/venvs" (fun _ => ["proj-T6_OZwU--myenv"])) "myenv"
      = some "proj-T6_OZwU--myenv"
    ∧ "proj-T6_OZwU--myenv" ≠ "/venvs/proj-T6_OZwU--myenv" := by
  constructor
  · decide
  · decide

/-- Claim C2, amended: every binding produced by the enumerator maps the
prefix-stripped basename to the bare directory-listing entry name itself
(never joined with the storage root). -/
theorem get_venvs_maps_stripped_name_to_entry (ws venv_root : String)
    (readdir : String → List String) (k v : String)
    (h : object_fromEntries (get_venvs ws venv_root readdir) k = some v) :
    v ∈ readdir venv_root
    ∧ k = jsSliceFrom (basename v) (jsLength ( get_hashed_prefix ws)) := by
  unfold object_fromEntries at h
  cases e : (get_venvs ws venv_root readdir).reverse.find? (fun kv => kv.1 == k) with
  | none => rw [e] at h; simp at h
  | some kv =>
    rw [e] at h
    have hv : kv.2 = v := by simpa using h
    have hk : kv.1 = k := by simpa using List.find?_some e
    have hmem : kv ∈ get_venvs ws venv_root readdir := by
      have := List.mem_of_find?_eq_some e
      simpa using this
    simp only [get_venvs] at hmem
    rcases List.mem_map.mp hmem with ⟨file, hfile, hkv⟩
    rcases List.mem_filter.mp hfile with ⟨hin, _⟩
    constructor
    · rw [← hv, ← hkv]
      exact hin
    · rw [← hk, ← hv, ← hkv]

/-- Claim C2, witness for the amended statement at the Scenario A input. -/
theorem get_venvs_maps_stripped_name_to_entry_witness :
    "proj-T6_OZwU--myenv" ∈ (fun _ => ["proj-T6_OZwU--myenv"]) "/venvs"
    ∧ "myenv" = jsSliceFrom (basename "proj-T6_OZwU--myenv")
        (jsLength ( get_hashed_prefix "/home/u/proj")) :=
  get_venvs_maps_stripped_name_to_entry "/home/u/proj" "/venvs"
    (fun _ => ["proj-T6_OZwU--myenv"]) "myenv" "proj-T6_OZwU--myenv" (by decide)

/-- Claim C8: every binding of the enumerator comes from a directory-listing
entry whose basename starts with the computed hashed prefix for the root; no
other entry ever appears. -/
theorem get_venvs_only_hashed_entries (ws venv_root : String)
    (readdir : String → List String) (k v : String)
    (h : object_fromEntries (get_venvs ws venv_root readdir) k = some v) :
    v ∈ readdir venv_root
    ∧ jsStartsWith (basename v) ( get_hashed_prefix ws) = true := by
  unfold object_fromEntries at h
  cases e : (get_venvs ws venv_root readdir).reverse.find? (fun kv => kv.1 == k) with
  | none => rw [e] at h; simp at h
  | some kv =>
    rw [e] at h
    have hv : kv.2 = v := by simpa using h
    have hmem : kv ∈ get_venvs ws venv_root readdir := by
      have := List.mem_of_find?_eq_some e
      simpa using this
    simp only [get_venvs] at hmem
    rcases List.mem_map.mp hmem with ⟨file, hfile, hkv⟩
    rcases List.mem_filter.mp hfile with ⟨hin, hpref⟩
    constructor
    · rw [← hv, ← hkv]
      exact hin
    · rw [← hv, ← hkv]
      exact hpref

/-- Claim C8, witness: with a matching and a non-matching entry under the
storage root, the binding found for `myenv` is the matching entry. -/
theorem get_venvs_only_hashed_entries_witness :
    "proj-T6_OZwU--myenv" ∈ (fun _ => ["proj-T6_OZwU--myenv", "other-AAAAAAAA-env"]) "/venvs"
    ∧ jsStartsWith (basename "proj-T6_OZwU--myenv")
        ( get_hashed_prefix "/home/u/proj") = true :=
  get_venvs_only_hashed_entries "/home/u/proj" "/venvs"
    (fun _ => ["proj-T6_OZwU--myenv", "other-AAAAAAAA-env"]) "myenv" "proj-T6_OZwU--myenv"
    (by decide)

/-- Claim C9: when the externally held active path already equals the path
read from the marker file, `update_interpreter` returns with the record
unchanged and makes no call at all — neither `updateActiveEnvironmentPath`
nor a notification. -/
theorem update_interpreter_no_change_when_active (fs : FileSys) (ws active_env bin : String)
    (h1 : get_active_python_bin fs ws = Except.ok bin)
    (h2 : active_env = bin) :
    update_interpreter fs ws active_env = Except.ok (active_env, ([] : List Effect)) := by
  unfold update_interpreter
  rw [h1]
  simp [h2]

/-- Claim C9, witness: a marker file recording the already-active
interpreter. -/
theorem update_interpreter_no_change_when_active_witness :
    update_interpreter
        (fun p => if p = "/home/u/proj/.pdm-python"
          then FileState.content " /usr/bin/python3\n" else FileState.absent)
        "/home/u/proj" "/usr/bin/python3"
      = Except.ok ("/usr/bin/python3", ([] : List Effect)) :=
  update_interpreter_no_change_when_active
    (fun p => if p = "/home/u/proj/.pdm-python"
      then FileState.content " /usr/bin/python3\n" else FileState.absent)
    "/home/u/proj" "/usr/bin/python3" "/usr/bin/python3" rfl rfl

/-- Claim C10: the prompt reader keys on the FIRST line starting with the
prefix `prompt` (so `prompt_toolkit = x` is matched too); when that line has
no `=` the computation fails with the runtime `TypeError` instead of falling
back; when it has an `=` the trimmed value is returned, with the binary-path
fallback exactly when the value trims to the empty string; and with no
`prompt`-starting line at all the binary path is returned. -/
theorem get_prompt_of_venv_semantics :
    (promptPred "prompt_toolkit = x".data = true)
    ∧ (∀ (fs : FileSys) (binary text : String),
        readFile fs (pyvenv_cfg_path binary) = Except.ok text →
        (splitChar '\n' text.data).find? promptPred = none →
        get_prompt_of_venv fs binary = Except.ok binary)
    ∧ (∀ (fs : FileSys) (binary text : String) (line : List Char),
        readFile fs (pyvenv_cfg_path binary) = Except.ok text →
        (splitChar '\n' text.data).find? promptPred = some line →
        (('=' ∉ line) → get_prompt_of_venv fs binary = Except.error PromptFailure.typeErr)
        ∧ (∀ v, (splitChar '=' line).get? 1 = some v → jsTrimList v = [] →
            get_prompt_of_venv fs binary = Except.ok binary)
        ∧ (∀ v, (splitChar '=' line).get? 1 = some v → jsTrimList v ≠ [] →
            get_prompt_of_venv fs binary = Except.ok (String.mk (jsTrimList v)))) := by
  refine ⟨by decide, ?_, ?_⟩
  · intro fs binary text h1 h2
    simp only [get_prompt_of_venv, h1, h2]
  · intro fs binary text line h1 h2
    refine ⟨?_, ?_, ?_⟩
    · intro hne
      simp only [get_prompt_of_venv, h1, h2, splitChar_not_mem '=' line hne]
      rfl
    · intro v hv hemp
      simp only [get_prompt_of_venv, h1, h2, hv]
      simp [hemp]
    · intro v hv hemp
      simp only [get_prompt_of_venv, h1, h2, hv]
      simp [hemp]

/-- Claim C10, witness: a `pyvenv.cfg` whose first `prompt`-starting line has
no `=` makes the reader fail with the `TypeError`, not fall back. -/
theorem get_prompt_of_venv_semantics_witness :
    get_prompt_of_venv (fun _ => FileState.content "home = /usr\nprompt\n")
        "/venvs/v/bin/python"
      = Except.error PromptFailure.typeErr :=
  (get_prompt_of_venv_semantics.2.2 (fun _ => FileState.content "home = /usr\nprompt\n")
    "/venvs/v/bin/python" "home = /usr\nprompt\n" "prompt".data rfl (by decide)).1 (by decide)
